import Mathlib

/-!
# Verification of the jsonrpcserver response module

A shallow embedding of src/jsonrpcserver/response.py (and, where the
repository ships only tests for it, a spec-modelled fragment of the
request/dispatch pipeline), together with theorems settling the claims
about response construction, key ordering and serialization.

JSON values are modelled by the inductive type Json; Python dictionaries
by association lists in insertion order; a raised Python exception by
Option.none (or Except.error).
-/

/-- A JSON value.  Numbers are modelled as integers (the repository only
ever places integer codes and ids in responses). -/
inductive Json where
  | null : Json
  | bool (b : Bool) : Json
  | num (n : Int) : Json
  | str (s : String) : Json
  | arr (xs : List Json) : Json
  | obj (kvs : List (String × Json)) : Json

/-- Python truthiness of a JSON value: None, False, 0, "", [] and {} are
falsy, everything else truthy.  Used by the source's `if result`,
`if request_id`, `if self.json` tests. -/
def truthy : Json → Bool
  | Json.null => false
  | Json.bool b => b
  | Json.num n => n != 0
  | Json.str s => !s.isEmpty
  | Json.arr xs => !xs.isEmpty
  | Json.obj kvs => !kvs.isEmpty

/-- Python's list.index as a partial function: the position of the first
occurrence of a key in a list, None when absent (where Python raises
ValueError). -/
def indexOfKey (order : List String) (k : String) : Option Nat :=
  match order with
  | [] => none
  | o :: os => if o == k then some 0 else (indexOfKey os k).map (fun i => i + 1)

/-- Tag each entry of a dictionary with the position of its key in the
given order list; None as soon as one key is absent from the list
(modelling the ValueError raised by list.index inside sorted's key
function). -/
def tagIdx (order : List String) : List (String × Json) → Option (List (Nat × (String × Json)))
  | [] => some []
  | kv :: rest =>
    match indexOfKey order kv.1, tagIdx order rest with
    | some i, some t => some ((i, kv) :: t)
    | _, _ => none

/-- Python's sorted(items, key=lambda k: order.index(k[0])): a stable sort
of the dictionary entries by the position of their key in the order list,
None when some key is not listed. -/
def sortByOrder (order : List String) (kvs : List (String × Json)) : Option (List (String × Json)) :=
  (tagIdx order kvs).map (fun t =>
    (List.insertionSort (fun a b => a.1 ≤ b.1) t).map (fun x => x.2))

/-- Python dictionary lookup restricted to first match (dictionaries have
unique keys, so first match is the match). -/
def lookupKey (kvs : List (String × Json)) (k : String) : Option Json :=
  (kvs.find? (fun kv => kv.1 == k)).map (fun kv => kv.2)

/-- The fixed top-level key order of _sort_response. -/
def rootOrder : List String := ["jsonrpc", "result", "error", "id"]

/-- The fixed error-object key order of _sort_response. -/
def errorOrder : List String := ["code", "message", "data"]

/-- response.py _sort_response: when an error entry is present its object
is re-sorted by errorOrder, then the top level is sorted by rootOrder.
None models a raised exception (list.index ValueError on an unknown key,
or .items() on a non-object error value). -/
def _sort_response (response : List (String × Json)) : Option (List (String × Json)) :=
  match lookupKey response "error" with
  | some ev =>
    match ev with
    | Json.obj eo =>
      (sortByOrder errorOrder eo).bind (fun se =>
        sortByOrder rootOrder (response.map (fun kv =>
          if kv.1 == "error" then (kv.1, Json.obj se) else kv)))
    | _ => none
  | none => sortByOrder rootOrder response

mutual
/-- Python json.dumps with its default separators. -/
def dumps : Json → String
  | Json.null => "null"
  | Json.bool true => "true"
  | Json.bool false => "false"
  | Json.num n => toString n
  | Json.str s => "\"" ++ s ++ "\""
  | Json.arr xs => "[" ++ dumpsArr xs ++ "]"
  | Json.obj kvs => "\x7b" ++ dumpsObj kvs ++ "\x7d"

/-- Comma-separated serialization of array elements. -/
def dumpsArr : List Json → String
  | [] => ""
  | [x] => dumps x
  | x :: y :: rest => dumps x ++ ", " ++ dumpsArr (y :: rest)

/-- Comma-separated serialization of object entries, in list order. -/
def dumpsObj : List (String × Json) → String
  | [] => ""
  | [kv] => "\"" ++ kv.1 ++ "\": " ++ dumps kv.2
  | kv :: kv2 :: rest => "\"" ++ kv.1 ++ "\": " ++ dumps kv.2 ++ ", " ++ dumpsObj (kv2 :: rest)
end

/-- _Response.body: json.dumps(_sort_response(self.json)) if self.json
else the empty string.  The argument is the value of the json property
(None for a bodiless success response); the result is None when
_sort_response raises. -/
def responseBody (j : Option (List (String × Json))) : Option String :=
  match j with
  | none => some ""
  | some m =>
    if truthy (Json.obj m) then (_sort_response m).map (fun s => dumps (Json.obj s))
    else some ""

/-- SuccessResponse: http status, request id and result payload. -/
structure SuccessResponse where
  http_status : Nat
  request_id : Json
  result : Json

namespace SuccessResponse

/-- SuccessResponse.__init__: raises ValueError when a (truthy) result is
supplied with a falsy request id; otherwise stores the fields, with http
status 200 for a request and 204 for a notification. -/
def init (request_id : Json) (result : Json) : Except String SuccessResponse :=
  if truthy result && !(truthy request_id) then
    Except.error "Notifications cannot have a result payload"
  else
    Except.ok ⟨if truthy request_id then 200 else 204, request_id, result⟩

/-- SuccessResponse.json: the response dictionary when the request id is
truthy, None otherwise. -/
def json (s : SuccessResponse) : Option (List (String × Json)) :=
  if truthy s.request_id then
    some [("jsonrpc", Json.str "2.0"), ("result", s.result), ("id", s.request_id)]
  else none

/-- SuccessResponse.body, inherited from _Response. -/
def body (s : SuccessResponse) : Option String :=
  responseBody (json s)

end SuccessResponse

/-- ErrorResponse: http status, request id, error code, message and data. -/
structure ErrorResponse where
  http_status : Nat
  request_id : Json
  code : Json
  message : Json
  data : Json

/-- Python dictionary assignment d[k] = v: replace the value in place when
the key is present, append the entry otherwise. -/
def dictSet (kvs : List (String × Json)) (k : String) (v : Json) : List (String × Json) :=
  if kvs.any (fun kv => kv.1 == k) then
    kvs.map (fun kv => if kv.1 == k then (kv.1, v) else kv)
  else kvs ++ [(k, v)]

namespace ErrorResponse

/-- ErrorResponse.json: jsonrpc, error (code and message only) and id. -/
def json (e : ErrorResponse) : List (String × Json) :=
  [("jsonrpc", Json.str "2.0"),
   ("error", Json.obj [("code", e.code), ("message", e.message)]),
   ("id", e.request_id)]

/-- ErrorResponse.json_debug: the json dictionary with the data attribute
added to the error object (r['error']['data'] = self.data). -/
def json_debug (e : ErrorResponse) : List (String × Json) :=
  (json e).map (fun kv =>
    if kv.1 == "error" then
      (kv.1, match kv.2 with
             | Json.obj eo => Json.obj (dictSet eo "data" e.data)
             | v => v)
    else kv)

/-- ErrorResponse.body, inherited from _Response. -/
def body (e : ErrorResponse) : Option String :=
  responseBody (some (json e))

/-- ErrorResponse.body_debug: json.dumps(_sort_response(self.json_debug)),
with no truthiness guard. -/
def body_debug (e : ErrorResponse) : Option String :=
  (_sort_response (json_debug e)).map (fun s => dumps (Json.obj s))

end ErrorResponse

/-- Modelled from the spec: the process-wide configuration flags (the
config module is not under src/): debug output, camelCase normalization
and surfacing of notification failures. -/
structure Config where
  debug : Bool
  convert_camel_case : Bool
  notification_errors : Bool

/-- Modelled from the spec: conversion of a camelCase name to snake_case
(each uppercase letter becomes an underscore followed by its lowercase
form), as applied by the request parser when normalization is enabled. -/
def camelToSnake (s : String) : String :=
  String.mk (s.data.foldr
    (fun c acc => if c.isUpper then '_' :: c.toLower :: acc else c :: acc) [])

mutual
/-- Modelled from the spec: recursive normalization of mapping keys —
every mapping key, at any nesting depth of mapping values, is converted
from camelCase to snake_case; sequence elements are never transformed. -/
def convertKeys : Json → Json
  | Json.obj kvs => Json.obj (convertKeysObj kvs)
  | j => j

/-- Modelled from the spec: key normalization over the entries of one
mapping. -/
def convertKeysObj : List (String × Json) → List (String × Json)
  | [] => []
  | kv :: rest => (camelToSnake kv.1, convertKeys kv.2) :: convertKeysObj rest
end

/-- Modelled from the spec: a parsed Request — method name (possibly
case-normalized), positional args, keyword args and optional request id
(none meaning the id field was absent, i.e. a notification).  The request
module is not under src/. -/
structure Request where
  method_name : String
  args : List Json
  kwargs : List (String × Json)
  request_id : Option Json

/-- Modelled from the spec: Request construction from the raw method,
params and id fields.  A sequence params becomes args in order, a mapping
params becomes kwargs, absent params yields both empty; with camelCase
normalization enabled the method name and all mapping keys (recursively)
are converted, sequence elements never. -/
def mkRequest (cfg : Config) (method : String) (params : Option Json)
    (id : Option Json) : Request :=
  let m := if cfg.convert_camel_case then camelToSnake method else method
  match params with
  | some (Json.arr xs) => ⟨m, xs, [], id⟩
  | some (Json.obj kvs) =>
    ⟨m, [], if cfg.convert_camel_case then convertKeysObj kvs else kvs, id⟩
  | _ => ⟨m, [], [], id⟩

/-- Modelled from the spec: the ways processing a resolved procedure can
fail — a binding mismatch (Invalid Params), an explicitly raised
JSON-RPC error, or any other uncaught fault (Server Error). -/
inductive Failure where
  | methodNotFound : Failure
  | invalidParams : Failure
  | explicitError (code : Int) (message : String) (data : Json) : Failure
  | serverError : Failure

/-- Modelled from the spec: the ErrorResponse built for a failure, with
the JSON-RPC 2.0 code taxonomy (-32601 Method not found, -32602 Invalid
params, -32000 Server error, pass-through for explicit errors). -/
def Failure.toErrorResponse (requestId : Json) : Failure → ErrorResponse
  | Failure.methodNotFound =>
    ⟨404, requestId, Json.num (-32601), Json.str "Method not found", Json.null⟩
  | Failure.invalidParams =>
    ⟨400, requestId, Json.num (-32602), Json.str "Invalid params", Json.null⟩
  | Failure.explicitError c m d => ⟨400, requestId, Json.num c, Json.str m, d⟩
  | Failure.serverError =>
    ⟨500, requestId, Json.num (-32000), Json.str "Server error", Json.null⟩

/-- Modelled from the spec: the outcome of dispatching one request unit —
a suppressed notification (no body), a success response, or an error
response. -/
inductive DispatchResult where
  | notificationResp : DispatchResult
  | success (r : SuccessResponse) : DispatchResult
  | errorResp (e : ErrorResponse) : DispatchResult

/-- Modelled from the spec: a procedure source as a name-to-procedure
association; a procedure takes positional and keyword arguments and
either returns a value or fails. -/
def Methods : Type :=
  List (String × (List Json → List (String × Json) → Except Failure Json))

/-- Modelled from the spec: the response to a failure — an ErrorResponse
for a request; for a notification, a NotificationResponse unless the
notification-errors flag forces an ErrorResponse (with null id). -/
def respondFailure (cfg : Config) (req : Request) (f : Failure) : DispatchResult :=
  match req.request_id with
  | some rid => DispatchResult.errorResp (f.toErrorResponse rid)
  | none =>
    if cfg.notification_errors then
      DispatchResult.errorResp (f.toErrorResponse Json.null)
    else DispatchResult.notificationResp

/-- Modelled from the spec: Request.call — resolve the method name in the
procedure source (Method Not Found when absent), invoke it, and map the
outcome to a response variant; a successful notification yields a
NotificationResponse. -/
def dispatchCall (cfg : Config) (req : Request) (methods : Methods) : DispatchResult :=
  match methods.find? (fun m => m.1 == req.method_name) with
  | none => respondFailure cfg req Failure.methodNotFound
  | some m =>
    match m.2 req.args req.kwargs with
    | Except.ok v =>
      match req.request_id with
      | none => DispatchResult.notificationResp
      | some rid => DispatchResult.success ⟨200, rid, v⟩
    | Except.error f => respondFailure cfg req f


/-- Discriminator for the error variant of a dispatch outcome. -/
def DispatchResult.isError : DispatchResult → Bool
  | DispatchResult.errorResp _ => true
  | _ => false

/-- The strict order on keys induced by their positions in an order list
(false when either key is absent). -/
def keyLt (order : List String) (a b : String) : Bool :=
  match indexOfKey order a, indexOfKey order b with
  | some i, some j => decide (i < j)
  | _, _ => false


/-! ## Helper lemmas about the sorting pipeline -/

/-- Characterization of the strict key order induced by positions in an order list. -/
theorem keyLt_eq_true_iff (order : List String) (a b : String) :
    keyLt order a b = true ↔
      ∃ i j, indexOfKey order a = some i ∧ indexOfKey order b = some j ∧ i < j := by
  unfold keyLt
  cases ha : indexOfKey order a with
  | none => simp
  | some i =>
    cases hb : indexOfKey order b with
    | none => simp
    | some j => simp

theorem indexOfKey_isSome_iff (order : List String) (k : String) :
    (∃ i, indexOfKey order k = some i) ↔ k ∈ order := by
  induction order with
  | nil => simp [indexOfKey]
  | cons o os ih =>
    unfold indexOfKey
    by_cases ho : o == k
    · have : o = k := eq_of_beq ho
      subst this
      simp [ho]
    · have hne : ¬ k = o := by
        intro h
        subst h
        simp at ho
      rw [if_neg ho]
      simp only [List.mem_cons, hne, false_or]
      rw [← ih]
      constructor
      · rintro ⟨i, hi⟩
        cases ha : indexOfKey os k with
        | none =>
          rw [ha] at hi
          simp at hi
        | some a => exact ⟨a, rfl⟩
      · rintro ⟨a, ha⟩
        exact ⟨a + 1, by rw [ha]; rfl⟩

theorem indexOfKey_getD (order : List String) (k : String) (i : Nat)
    (h : indexOfKey order k = some i) : order.getD i "" = k := by
  induction order generalizing i with
  | nil => simp [indexOfKey] at h
  | cons o os ih =>
    unfold indexOfKey at h
    by_cases ho : o == k
    · rw [if_pos ho] at h
      injection h with h
      subst h
      simpa using eq_of_beq ho
    · rw [if_neg ho] at h
      cases hi : indexOfKey os k with
      | none =>
        rw [hi] at h
        simp at h
      | some j =>
        rw [hi] at h
        simp at h
        subst h
        simpa using ih j hi

theorem tagIdx_sound (order : List String) (kvs : List (String × Json))
    (t : List (Nat × (String × Json))) (h : tagIdx order kvs = some t) :
    t.map (fun x => x.2) = kvs ∧
    (∀ x ∈ t, indexOfKey order x.2.1 = some x.1) ∧
    (∀ k ∈ kvs.map Prod.fst, k ∈ order) := by
  induction kvs generalizing t with
  | nil =>
    unfold tagIdx at h
    injection h with h
    subst h
    simp
  | cons kv rest ih =>
    unfold tagIdx at h
    cases hi : indexOfKey order kv.1 with
    | none =>
      rw [hi] at h
      simp at h
    | some i =>
      rw [hi] at h
      cases ht : tagIdx order rest with
      | none =>
        rw [ht] at h
        simp at h
      | some t0 =>
        rw [ht] at h
        simp at h
        subst h
        obtain ⟨h1, h2, h3⟩ := ih t0 ht
        refine ⟨by simp [h1], ?_, ?_⟩
        · intro x hx
          rcases List.mem_cons.mp hx with hx | hx
          · subst hx
            exact hi
          · exact h2 x hx
        · intro k hk
          simp only [List.map_cons, List.mem_cons] at hk
          rcases hk with hk | hk
          · subst hk
            exact indexOfKey_isSome_iff order kv.1 |>.mp ⟨i, hi⟩
          · exact h3 k hk

theorem tagIdx_total (order : List String) (kvs : List (String × Json))
    (h : ∀ k ∈ kvs.map Prod.fst, k ∈ order) :
    ∃ t, tagIdx order kvs = some t := by
  induction kvs with
  | nil => exact ⟨[], rfl⟩
  | cons kv rest ih =>
    have hk : kv.1 ∈ order := h kv.1 (by simp)
    rcases (indexOfKey_isSome_iff order kv.1).mpr hk with ⟨i, hi⟩
    rcases ih (fun k hmem => h k (by simp [hmem])) with ⟨t0, ht⟩
    refine ⟨(i, kv) :: t0, ?_⟩
    unfold tagIdx
    rw [hi, ht]

theorem pairwise_keyLt_of_nodup (order : List String) (h : order.Nodup) :
    order.Pairwise (fun a b => keyLt order a b = true) := by
  induction order with
  | nil => exact List.Pairwise.nil
  | cons o os ih =>
    rcases List.nodup_cons.mp h with ⟨ho, hos⟩
    rw [List.pairwise_cons]
    constructor
    · intro b hb
      have hbo : ¬ b = o := fun hh => ho (hh ▸ hb)
      rcases (indexOfKey_isSome_iff os b).mpr hb with ⟨j, hj⟩
      rw [keyLt_eq_true_iff]
      refine ⟨0, j + 1, ?_, ?_, Nat.succ_pos j⟩
      · unfold indexOfKey
        rw [if_pos (beq_self_eq_true o)]
      · unfold indexOfKey
        have : ¬ (o == b) = true := by
          intro hh
          exact hbo (eq_of_beq hh).symm
        rw [if_neg this, hj]
        rfl
    · refine (ih hos).imp_of_mem ?_
      intro a b ha hb hab
      rcases (keyLt_eq_true_iff os a b).mp hab with ⟨i, j, hi, hj, hij⟩
      rw [keyLt_eq_true_iff]
      have hao : ¬ (o == a) = true := by
        intro hh
        exact ho ((eq_of_beq hh) ▸ ha)
      have hbo : ¬ (o == b) = true := by
        intro hh
        exact ho ((eq_of_beq hh) ▸ hb)
      refine ⟨i + 1, j + 1, ?_, ?_, Nat.succ_lt_succ hij⟩
      · unfold indexOfKey
        rw [if_neg hao, hi]
        rfl
      · unfold indexOfKey
        rw [if_neg hbo, hj]
        rfl

theorem sortByOrder_perm (order : List String) (kvs : List (String × Json))
    (s : List (String × Json)) (h : sortByOrder order kvs = some s) :
    s.Perm kvs := by
  unfold sortByOrder at h
  cases ht : tagIdx order kvs with
  | none =>
    rw [ht] at h
    simp at h
  | some t =>
    rw [ht] at h
    simp at h
    obtain ⟨h1, _, _⟩ := tagIdx_sound order kvs t ht
    subst h
    exact h1 ▸ ((List.perm_insertionSort (fun a b => a.1 ≤ b.1) t).map (fun x => x.2))

theorem sortByOrder_spec (order : List String) (kvs : List (String × Json))
    (hordnd : order.Nodup)
    (hnd : (kvs.map Prod.fst).Nodup)
    (hsub : ∀ k ∈ kvs.map Prod.fst, k ∈ order) :
    ∃ s, sortByOrder order kvs = some s ∧ s.Perm kvs ∧
      s.map Prod.fst = order.filter (fun k => decide (k ∈ kvs.map Prod.fst)) := by
  rcases tagIdx_total order kvs hsub with ⟨t, ht⟩
  obtain ⟨hmapt, hidx, _⟩ := tagIdx_sound order kvs t ht
  haveI : IsTotal (Nat × (String × Json)) (fun a b => a.1 ≤ b.1) :=
    ⟨fun a b => Nat.le_total a.1 b.1⟩
  haveI : IsTrans (Nat × (String × Json)) (fun a b => a.1 ≤ b.1) :=
    ⟨fun _ _ _ hab hbc => Nat.le_trans hab hbc⟩
  set lt' := fun a b : Nat × (String × Json) => a.1 ≤ b.1 with hlt'
  set t' := List.insertionSort lt' t with ht'
  have hpermt : t'.Perm t := List.perm_insertionSort lt' t
  have hsorted : List.Pairwise lt' t' := List.sorted_insertionSort lt' t
  set s := t'.map (fun x => x.2) with hs
  have hsortdef : sortByOrder order kvs = some s := by
    unfold sortByOrder
    rw [ht]
    rfl
  have hsperm : s.Perm kvs := sortByOrder_perm order kvs s hsortdef
  have hkeyperm : (s.map Prod.fst).Perm (kvs.map Prod.fst) := hsperm.map Prod.fst
  have hknd : (s.map Prod.fst).Nodup := hkeyperm.nodup_iff.mpr hnd
  have hkeys_eq : s.map Prod.fst = t'.map (fun x => x.2.1) := by
    rw [hs, List.map_map]
    rfl
  have hidx' : ∀ x ∈ t', indexOfKey order x.2.1 = some x.1 := by
    intro x hx
    exact hidx x (hpermt.mem_iff.mp hx)
  -- Pairwise strict key order on the sorted keys
  have hpw_ne : List.Pairwise (fun a b : Nat × (String × Json) => ¬ a.2.1 = b.2.1) t' := by
    have := hknd
    rw [hkeys_eq] at this
    exact List.pairwise_map.mp this
  have hpw : List.Pairwise (fun a b : Nat × (String × Json) =>
      keyLt order a.2.1 b.2.1 = true) t' := by
    refine (hsorted.and hpw_ne).imp_of_mem ?_
    intro a b ha hb hab
    rcases hab with ⟨hle, hne⟩
    have hia := hidx' a ha
    have hib := hidx' b hb
    have hlt : a.1 < b.1 := by
      rcases Nat.lt_or_ge a.1 b.1 with h | h
      · exact h
      · have heq : a.1 = b.1 := Nat.le_antisymm hle h
        exfalso
        apply hne
        have h1 := indexOfKey_getD order a.2.1 a.1 hia
        have h2 := indexOfKey_getD order b.2.1 b.1 hib
        rw [← h1, ← h2, heq]
      -- done
    rw [keyLt_eq_true_iff]
    exact ⟨a.1, b.1, hia, hib, hlt⟩
  have hpwkeys : List.Pairwise (fun a b => keyLt order a b = true) (s.map Prod.fst) := by
    rw [hkeys_eq]
    exact List.pairwise_map.mpr hpw
  have hpwfilter : List.Pairwise (fun a b => keyLt order a b = true)
      (order.filter (fun k => decide (k ∈ kvs.map Prod.fst))) :=
    List.Pairwise.sublist (List.filter_sublist order) (pairwise_keyLt_of_nodup order hordnd)
  have hfiltnd : (order.filter (fun k => decide (k ∈ kvs.map Prod.fst))).Nodup :=
    hordnd.filter _
  have hmemiff : ∀ k, k ∈ s.map Prod.fst ↔
      k ∈ order.filter (fun k => decide (k ∈ kvs.map Prod.fst)) := by
    intro k
    rw [List.mem_filter, hkeyperm.mem_iff]
    constructor
    · intro hk
      exact ⟨hsub k hk, by simpa using hk⟩
    · intro hk
      simpa using hk.2
  have hkeypermfilter : (s.map Prod.fst).Perm
      (order.filter (fun k => decide (k ∈ kvs.map Prod.fst))) :=
    (List.perm_ext_iff_of_nodup hknd hfiltnd).mpr hmemiff
  haveI : IsAntisymm String (fun a b => keyLt order a b = true) := by
    refine ⟨fun a b hab hba => ?_⟩
    rcases (keyLt_eq_true_iff order a b).mp hab with ⟨i, j, hi, hj, hij⟩
    rcases (keyLt_eq_true_iff order b a).mp hba with ⟨j2, i2, hj2, hi2, hji⟩
    rw [hi] at hi2
    rw [hj] at hj2
    injection hi2 with hi2
    injection hj2 with hj2
    subst hi2
    subst hj2
    exact absurd (Nat.lt_trans hij hji) (Nat.lt_irrefl _)
  exact ⟨s, hsortdef, hsperm,
    List.eq_of_perm_of_sorted hkeypermfilter hpwkeys hpwfilter⟩

theorem lookupKey_mem (r : List (String × Json)) (k : String) (v : Json)
    (h : lookupKey r k = some v) : (k, v) ∈ r := by
  unfold lookupKey at h
  cases hf : r.find? (fun kv => kv.1 == k) with
  | none =>
    rw [hf] at h
    simp at h
  | some kv0 =>
    rw [hf] at h
    simp at h
    have hp := List.find?_some hf
    have hk : kv0.1 = k := eq_of_beq hp
    have hkv : (k, v) = kv0 := by
      rw [← h, ← hk]
    rw [hkv]
    exact List.mem_of_find?_eq_some hf

theorem lookupKey_eq_some_of_mem (r : List (String × Json)) (k : String) (v : Json)
    (hnd : (r.map Prod.fst).Nodup) (h : (k, v) ∈ r) : lookupKey r k = some v := by
  induction r with
  | nil => simp at h
  | cons kv rest ih =>
    rcases List.nodup_cons.mp (by simpa only [List.map_cons] using hnd) with ⟨hhead, htail⟩
    unfold lookupKey
    by_cases hk : (kv.1 == k) = true
    · rw [List.find?_cons_of_pos (p := fun kv : String × Json => kv.1 == k) _ hk]
      rcases List.mem_cons.mp h with h1 | h1
      · rw [← h1]
        rfl
      · exfalso
        apply hhead
        rw [eq_of_beq hk]
        exact List.mem_map_of_mem Prod.fst h1
    · rw [List.find?_cons_of_neg (p := fun kv : String × Json => kv.1 == k) _ hk]
      rcases List.mem_cons.mp h with h1 | h1
      · exfalso
        apply hk
        rw [← h1]
        exact beq_self_eq_true k
      · exact ih htail h1

theorem lookupKey_eq_none_not_mem (r : List (String × Json)) (k : String) (v : Json)
    (h : lookupKey r k = none) : ¬ (k, v) ∈ r := by
  intro hmem
  unfold lookupKey at h
  cases hf : r.find? (fun kv => kv.1 == k) with
  | some kv0 =>
    rw [hf] at h
    simp at h
  | none =>
    have := List.find?_eq_none.mp hf (k, v) hmem
    simp at this

theorem map_replace_keys (r : List (String × Json)) (se : List (String × Json)) :
    ((r.map (fun kv => if kv.1 == "error" then (kv.1, Json.obj se) else kv)).map Prod.fst)
      = r.map Prod.fst := by
  induction r with
  | nil => rfl
  | cons kv rest ih =>
    simp only [List.map_cons, ih]
    by_cases h : kv.1 == "error"
    · rw [if_pos h]
    · rw [if_neg h]

theorem mem_replace_iff (r : List (String × Json)) (se : List (String × Json))
    (k : String) (v : Json) (hk : ¬ k = "error") :
    ((k, v) ∈ r.map (fun kv => if kv.1 == "error" then (kv.1, Json.obj se) else kv)
      ↔ (k, v) ∈ r) := by
  constructor
  · intro h
    rcases List.mem_map.mp h with ⟨kv, hkv, hf⟩
    by_cases he : (kv.1 == "error") = true
    · rw [if_pos he] at hf
      injection hf with hf1 hf2
      exact absurd (hf1 ▸ eq_of_beq he) hk
    · rw [if_neg he] at hf
      rw [← hf]
      exact hkv
  · intro h
    have he : ¬ ((k, v).1 == "error") = true := by
      intro hh
      exact hk (eq_of_beq hh)
    have hmem := List.mem_map_of_mem
      (fun kv => if kv.1 == "error" then (kv.1, Json.obj se) else kv) h
    simpa [he] using hmem

theorem sortByOrder_total (order : List String) (kvs : List (String × Json))
    (h : ∀ k ∈ kvs.map Prod.fst, k ∈ order) :
    ∃ s, sortByOrder order kvs = some s := by
  rcases tagIdx_total order kvs h with ⟨t, ht⟩
  exact ⟨(List.insertionSort (fun a b => a.1 ≤ b.1) t).map (fun x => x.2),
    by unfold sortByOrder; rw [ht]; rfl⟩

theorem sortByOrder_none_of_badkey (order : List String) (kvs : List (String × Json))
    (h : ∃ k ∈ kvs.map Prod.fst, ¬ k ∈ order) :
    sortByOrder order kvs = none := by
  cases hs : sortByOrder order kvs with
  | none => rfl
  | some s =>
    exfalso
    unfold sortByOrder at hs
    cases ht : tagIdx order kvs with
    | none =>
      rw [ht] at hs
      simp at hs
    | some t =>
      rcases h with ⟨k, hk, hno⟩
      exact hno ((tagIdx_sound order kvs t ht).2.2 k hk)


/-! ## Claims -/

/-- Claim C1: for a response mapping with unique top-level keys among jsonrpc, result, error, id, whose error entry (if any) is an object with unique keys among code, message, data, the sorted mapping (and hence the serialized wire body) lists the present top-level keys in exactly the order jsonrpc, result, error, id and the present error keys in exactly the order code, message, data. -/
theorem sort_response_key_order (r : List (String × Json))
    (hnd : (r.map Prod.fst).Nodup)
    (hroot : ∀ k ∈ r.map Prod.fst, k ∈ rootOrder)
    (herr : ∀ kv ∈ r, kv.1 = "error" → ∃ eo, kv.2 = Json.obj eo ∧
        (eo.map Prod.fst).Nodup ∧ ∀ k ∈ eo.map Prod.fst, k ∈ errorOrder) :
    ∃ s, _sort_response r = some s ∧
      (¬ r = [] → responseBody (some r) = some (dumps (Json.obj s))) ∧
      s.map Prod.fst = rootOrder.filter (fun k => decide (k ∈ r.map Prod.fst)) ∧
      ∀ eo, ("error", Json.obj eo) ∈ r →
        ∃ se, ("error", Json.obj se) ∈ s ∧
          se.map Prod.fst = errorOrder.filter (fun k => decide (k ∈ eo.map Prod.fst)) := by
  have main : ∃ s, _sort_response r = some s ∧
      s.map Prod.fst = rootOrder.filter (fun k => decide (k ∈ r.map Prod.fst)) ∧
      ∀ eo, ("error", Json.obj eo) ∈ r →
        ∃ se, ("error", Json.obj se) ∈ s ∧
          se.map Prod.fst = errorOrder.filter (fun k => decide (k ∈ eo.map Prod.fst)) := by
    unfold _sort_response
    cases hlk : lookupKey r "error" with
    | none =>
      rcases sortByOrder_spec rootOrder r (by decide) hnd hroot with ⟨s, hs, hsperm, hskeys⟩
      refine ⟨s, hs, hskeys, ?_⟩
      intro eo heo
      exact absurd heo (lookupKey_eq_none_not_mem r "error" (Json.obj eo) hlk)
    | some ev =>
      have hmem : ("error", ev) ∈ r := lookupKey_mem r "error" ev hlk
      rcases herr _ hmem rfl with ⟨eo, hev, heond, heosub⟩
      subst hev
      dsimp only
      rcases sortByOrder_spec errorOrder eo (by decide) heond heosub with ⟨se, hse, hseperm, hsekeys⟩
      rw [hse]
      have hr2keys := map_replace_keys r se
      rcases sortByOrder_spec rootOrder
          (r.map (fun kv => if kv.1 == "error" then (kv.1, Json.obj se) else kv))
          (by decide) (by rw [hr2keys]; exact hnd)
          (by rw [hr2keys]; exact hroot) with ⟨s, hs, hsperm, hskeys⟩
      refine ⟨s, by rw [Option.some_bind]; exact hs, by rw [hskeys, hr2keys], ?_⟩
      intro eo2 heo2
      have hlk2 : lookupKey r "error" = some (Json.obj eo2) :=
        lookupKey_eq_some_of_mem r "error" (Json.obj eo2) hnd heo2
      rw [hlk] at hlk2
      injection hlk2 with hlk2
      injection hlk2 with hlk2
      subst hlk2
      refine ⟨se, ?_, hsekeys⟩
      have himg := List.mem_map_of_mem
        (fun kv => if kv.1 == "error" then (kv.1, Json.obj se) else kv) heo2
      simp only [beq_self_eq_true, if_pos] at himg
      exact hsperm.mem_iff.mpr himg
  rcases main with ⟨s, hs, h1, h2⟩
  refine ⟨s, hs, ?_, h1, h2⟩
  intro hne
  have ht : truthy (Json.obj r) = true := by
    cases r with
    | nil => exact absurd rfl hne
    | cons a as => rfl
  unfold responseBody
  dsimp only
  rw [ht, if_pos rfl, hs]
  rfl

/-- Witness for claim C1 at a concrete unsorted response mapping. -/
theorem sort_response_key_order_witness :
    _sort_response [("id", Json.num 1),
        ("error", Json.obj [("message", Json.str "m"), ("code", Json.num 2)]),
        ("jsonrpc", Json.str "2.0")] =
      some [("jsonrpc", Json.str "2.0"),
        ("error", Json.obj [("code", Json.num 2), ("message", Json.str "m")]),
        ("id", Json.num 1)] ∧
    responseBody (some [("id", Json.num 1),
        ("error", Json.obj [("message", Json.str "m"), ("code", Json.num 2)]),
        ("jsonrpc", Json.str "2.0")]) =
      some (dumps (Json.obj [("jsonrpc", Json.str "2.0"),
        ("error", Json.obj [("code", Json.num 2), ("message", Json.str "m")]),
        ("id", Json.num 1)])) ∧
    ([("jsonrpc", Json.str "2.0"),
        ("error", Json.obj [("code", Json.num 2), ("message", Json.str "m")]),
        ("id", Json.num 1)] : List (String × Json)).map Prod.fst =
      rootOrder.filter (fun k => decide (k ∈
        ([("id", Json.num 1),
          ("error", Json.obj [("message", Json.str "m"), ("code", Json.num 2)]),
          ("jsonrpc", Json.str "2.0")] : List (String × Json)).map Prod.fst)) ∧
    ∃ se, ("error", Json.obj se) ∈
        ([("jsonrpc", Json.str "2.0"),
          ("error", Json.obj [("code", Json.num 2), ("message", Json.str "m")]),
          ("id", Json.num 1)] : List (String × Json)) ∧
      se.map Prod.fst = errorOrder.filter (fun k => decide (k ∈
        ([("message", Json.str "m"), ("code", Json.num 2)] : List (String × Json)).map Prod.fst)) := by
  rcases sort_response_key_order [("id", Json.num 1),
      ("error", Json.obj [("message", Json.str "m"), ("code", Json.num 2)]),
      ("jsonrpc", Json.str "2.0")] (by decide) (by decide) (by
    intro kv hkv hk
    simp only [List.mem_cons, List.not_mem_nil, or_false] at hkv
    rcases hkv with h1 | h1 | h1 <;> subst h1
    · exact absurd hk (by decide)
    · exact ⟨[("message", Json.str "m"), ("code", Json.num 2)], rfl, by decide, by decide⟩
    · exact absurd hk (by decide)) with ⟨s, hs, hbody, hkeys, herrp⟩
  have hs0 : s = [("jsonrpc", Json.str "2.0"),
      ("error", Json.obj [("code", Json.num 2), ("message", Json.str "m")]),
      ("id", Json.num 1)] := by
    have h2 : _sort_response [("id", Json.num 1),
        ("error", Json.obj [("message", Json.str "m"), ("code", Json.num 2)]),
        ("jsonrpc", Json.str "2.0")] =
      some [("jsonrpc", Json.str "2.0"),
        ("error", Json.obj [("code", Json.num 2), ("message", Json.str "m")]),
        ("id", Json.num 1)] := rfl
    rw [hs] at h2
    injection h2 with h2
  subst hs0
  exact ⟨hs, hbody (List.cons_ne_nil _ _), hkeys,
    herrp [("message", Json.str "m"), ("code", Json.num 2)] (by simp)⟩

/-- Claim C2, counterexample: a falsy result (the integer 0) supplied with a null (absent) request id does NOT make SuccessResponse construction fail: the truthiness test in the source lets every falsy result through. -/
theorem success_init_counterexample :
    SuccessResponse.init Json.null (Json.num 0) =
      Except.ok ⟨204, Json.null, Json.num 0⟩ := rfl

/-- Claim C2, amended: constructing a SuccessResponse with a truthy result but a falsy (absent) request id fails fast with the internal ValueError, for every result value and request id. -/
theorem success_init_truthy_result_raises (request_id result : Json) (hres : truthy result = true)
    (hid : truthy request_id = false) :
    SuccessResponse.init request_id result =
      Except.error "Notifications cannot have a result payload" := by
  unfold SuccessResponse.init
  rw [hres, hid]
  rfl

/-- Witness for the amended claim C2 at a concrete truthy result and null request id. -/
theorem success_init_truthy_result_raises_witness : SuccessResponse.init Json.null (Json.num 5) =
    Except.error "Notifications cannot have a result payload" :=
  success_init_truthy_result_raises Json.null (Json.num 5) rfl rfl

/-- Claim C3: every successfully constructed success response whose request id is null (the notification case) serializes to the empty body string. -/
theorem notification_success_empty_body (result : Json) (s : SuccessResponse)
    (h : SuccessResponse.init Json.null result = Except.ok s) :
    SuccessResponse.body s = some "" := by
  unfold SuccessResponse.init at h
  cases hr : truthy result with
  | true =>
    rw [hr] at h
    simp [truthy] at h
  | false =>
    rw [hr] at h
    simp [truthy] at h
    subst h
    rfl

/-- Witness for claim C3 at the concrete null result. -/
theorem notification_success_empty_body_witness : SuccessResponse.init Json.null Json.null = Except.ok ⟨204, Json.null, Json.null⟩ ∧
    SuccessResponse.body ⟨204, Json.null, Json.null⟩ = some "" :=
  ⟨rfl, notification_success_empty_body Json.null ⟨204, Json.null, Json.null⟩ rfl⟩

/-- Claim C4: the non-debug serialization of an ErrorResponse never contains a data key in the error object, while the debug serialization contains code, message and data. -/
theorem error_data_only_in_debug (e : ErrorResponse) :
    (∀ s, _sort_response (ErrorResponse.json e) = some s →
      ∀ eo, ("error", Json.obj eo) ∈ s → ¬ "data" ∈ eo.map Prod.fst) ∧
    (∃ s, _sort_response (ErrorResponse.json_debug e) = some s ∧
      ∃ eo, ("error", Json.obj eo) ∈ s ∧ ("code", e.code) ∈ eo ∧
        ("message", e.message) ∈ eo ∧ ("data", e.data) ∈ eo) := by
  constructor
  · intro s hs eo heo
    have hs0 : _sort_response (ErrorResponse.json e) =
        some [("jsonrpc", Json.str "2.0"),
              ("error", Json.obj [("code", e.code), ("message", e.message)]),
              ("id", e.request_id)] := rfl
    rw [hs0] at hs
    injection hs with hs
    subst hs
    simp [List.mem_cons] at heo
    subst heo
    simp
  · refine ⟨[("jsonrpc", Json.str "2.0"),
        ("error", Json.obj [("code", e.code), ("message", e.message), ("data", e.data)]),
        ("id", e.request_id)], rfl,
      [("code", e.code), ("message", e.message), ("data", e.data)], by simp, by simp, by simp, by simp⟩

/-- Witness for claim C4 at a concrete ErrorResponse. -/
theorem error_data_only_in_debug_witness :
    (¬ "data" ∈ ([("code", Json.num 1), ("message", Json.str "m")] : List (String × Json)).map Prod.fst) ∧
    (∃ s, _sort_response (ErrorResponse.json_debug ⟨400, Json.null, Json.num 1, Json.str "m", Json.num 2⟩) = some s ∧
      ∃ eo, ("error", Json.obj eo) ∈ s ∧ ("code", Json.num 1) ∈ eo ∧
        ("message", Json.str "m") ∈ eo ∧ ("data", Json.num 2) ∈ eo) :=
  ⟨(error_data_only_in_debug ⟨400, Json.null, Json.num 1, Json.str "m", Json.num 2⟩).1
      [("jsonrpc", Json.str "2.0"),
       ("error", Json.obj [("code", Json.num 1), ("message", Json.str "m")]),
       ("id", Json.null)] rfl
      [("code", Json.num 1), ("message", Json.str "m")] (by simp),
    (error_data_only_in_debug ⟨400, Json.null, Json.num 1, Json.str "m", Json.num 2⟩).2⟩

/-- Claim C5: a SuccessResponse serialized mapping contains a result key and never an error key, an ErrorResponse mapping contains an error key and never a result key, and the bodiless success (notification) case emits the empty body. -/
theorem response_variants_exclusive (sr : SuccessResponse) (er : ErrorResponse) :
    (∀ m, SuccessResponse.json sr = some m →
      "result" ∈ m.map Prod.fst ∧ ¬ "error" ∈ m.map Prod.fst) ∧
    (SuccessResponse.json sr = none → SuccessResponse.body sr = some "") ∧
    ("error" ∈ (ErrorResponse.json er).map Prod.fst ∧
      ¬ "result" ∈ (ErrorResponse.json er).map Prod.fst) := by
  refine ⟨?_, ?_, by simp [ErrorResponse.json], by simp [ErrorResponse.json]⟩
  · intro m hm
    unfold SuccessResponse.json at hm
    cases hr : truthy sr.request_id with
    | true =>
      rw [hr] at hm
      simp at hm
      subst hm
      simp
    | false =>
      rw [hr] at hm
      simp at hm
  · intro h
    unfold SuccessResponse.body
    rw [h]
    rfl

/-- Witness for claim C5 at concrete success and error responses. -/
theorem response_variants_exclusive_witness :
    ("result" ∈ ([("jsonrpc", Json.str "2.0"), ("result", Json.null), ("id", Json.num 1)] : List (String × Json)).map Prod.fst ∧
      ¬ "error" ∈ ([("jsonrpc", Json.str "2.0"), ("result", Json.null), ("id", Json.num 1)] : List (String × Json)).map Prod.fst) ∧
    SuccessResponse.body ⟨204, Json.null, Json.null⟩ = some "" ∧
    ("error" ∈ (ErrorResponse.json ⟨400, Json.null, Json.num 1, Json.str "m", Json.null⟩).map Prod.fst ∧
      ¬ "result" ∈ (ErrorResponse.json ⟨400, Json.null, Json.num 1, Json.str "m", Json.null⟩).map Prod.fst) :=
  ⟨(response_variants_exclusive ⟨200, Json.num 1, Json.null⟩ ⟨400, Json.null, Json.num 1, Json.str "m", Json.null⟩).1
      [("jsonrpc", Json.str "2.0"), ("result", Json.null), ("id", Json.num 1)] rfl,
    (response_variants_exclusive ⟨204, Json.null, Json.null⟩ ⟨400, Json.null, Json.num 1, Json.str "m", Json.null⟩).2.1 rfl,
    (response_variants_exclusive ⟨200, Json.num 1, Json.null⟩ ⟨400, Json.null, Json.num 1, Json.str "m", Json.null⟩).2.2⟩

/-- Claim C6 (spec-modelled): any failure while processing a notification (method not found, or any procedure failure) yields a NotificationResponse when the notification-errors flag is off and an ErrorResponse when it is on. -/
theorem notification_failure_policy (cfg : Config) (methods : Methods) (req : Request)
    (hreq : req.request_id = none)
    (hfail : ∀ p, methods.find? (fun m => m.1 == req.method_name) = some p →
      ∀ v, ¬ p.2 req.args req.kwargs = Except.ok v) :
    (cfg.notification_errors = false →
      dispatchCall cfg req methods = DispatchResult.notificationResp) ∧
    (cfg.notification_errors = true →
      (dispatchCall cfg req methods).isError = true) := by
  unfold dispatchCall
  cases hfind : methods.find? (fun m => m.1 == req.method_name) with
  | none =>
    unfold respondFailure
    rw [hreq]
    constructor
    · intro h
      rw [h]
      rfl
    · intro h
      rw [h]
      rfl
  | some p =>
    dsimp only
    cases hcall : p.2 req.args req.kwargs with
    | ok v => exact absurd hcall (hfail p hfind v)
    | error f =>
      unfold respondFailure
      rw [hreq]
      constructor
      · intro h
        rw [h]
        rfl
      · intro h
        rw [h]
        rfl

/-- Witness for claim C6: an unregistered method as a notification, with the flag off and on. -/
theorem notification_failure_policy_witness :
    dispatchCall ⟨false, false, false⟩ ⟨"baz", [], [], none⟩ [] = DispatchResult.notificationResp ∧
    (dispatchCall ⟨false, false, true⟩ ⟨"baz", [], [], none⟩ []).isError = true :=
  ⟨(notification_failure_policy ⟨false, false, false⟩ [] ⟨"baz", [], [], none⟩ rfl
      (by intro p hp; simp [List.find?] at hp)).1 rfl,
    (notification_failure_policy ⟨false, false, true⟩ [] ⟨"baz", [], [], none⟩ rfl
      (by intro p hp; simp [List.find?] at hp)).2 rfl⟩

/-- Claim C7: the Invalid-Request ErrorResponse with null id (code -32600) serializes to the object with keys jsonrpc, error (code, message), id, the id field present and equal to null, and the exact wire body string. -/
theorem invalid_request_null_id_body :
    _sort_response (ErrorResponse.json ⟨400, Json.null, Json.num (-32600), Json.str "Invalid Request", Json.null⟩) =
      some [("jsonrpc", Json.str "2.0"),
            ("error", Json.obj [("code", Json.num (-32600)), ("message", Json.str "Invalid Request")]),
            ("id", Json.null)] ∧
    ErrorResponse.body ⟨400, Json.null, Json.num (-32600), Json.str "Invalid Request", Json.null⟩ =
      some "\x7b\"jsonrpc\": \"2.0\", \"error\": \x7b\"code\": -32600, \"message\": \"Invalid Request\"\x7d, \"id\": null\x7d" :=
  ⟨rfl, rfl⟩

/-- Claim C8 (spec-modelled): with camelCase normalization enabled, the method name and all mapping-parameter keys (recursively through nested mapping values) are converted to snake_case, while sequence params are passed through unchanged. -/
theorem camel_case_normalization (cfg : Config) (hc : cfg.convert_camel_case = true)
    (method : String) (params : Option Json) (id : Option Json) :
    (mkRequest cfg method params id).method_name = camelToSnake method ∧
    (∀ kvs, params = some (Json.obj kvs) →
      (mkRequest cfg method params id).kwargs = convertKeysObj kvs ∧
      ∀ k v, (k, v) ∈ kvs → (camelToSnake k, convertKeys v) ∈ convertKeysObj kvs) ∧
    (∀ kvs, convertKeys (Json.obj kvs) = Json.obj (convertKeysObj kvs)) ∧
    (∀ xs, convertKeys (Json.arr xs) = Json.arr xs) ∧
    (∀ xs, params = some (Json.arr xs) → (mkRequest cfg method params id).args = xs) := by
  refine ⟨?_, ?_, fun kvs => rfl, fun xs => rfl, ?_⟩
  · unfold mkRequest
    rw [hc]
    cases params with
    | none => rfl
    | some p => cases p <;> rfl
  · intro kvs hp
    subst hp
    constructor
    · unfold mkRequest
      rw [hc]
      rfl
    · intro k v hkv
      induction kvs with
      | nil => simp at hkv
      | cons kv rest ih =>
        rcases List.mem_cons.mp hkv with h | h
        · rw [← h]
          unfold convertKeysObj
          exact List.mem_cons_self _ _
        · unfold convertKeysObj
          exact List.mem_cons_of_mem _ (ih h)
  · intro xs hp
    subst hp
    rfl

/-- Witness for claim C8: Scenario E, method fooMethod with params containing fooParam and a nested mapping. -/
theorem camel_case_normalization_witness :
    (mkRequest ⟨false, true, false⟩ "fooMethod"
      (some (Json.obj [("fooParam", Json.num 1), ("aDict", Json.obj [("barParam", Json.num 1)])])) none).method_name = "foo_method" ∧
    (mkRequest ⟨false, true, false⟩ "fooMethod"
      (some (Json.obj [("fooParam", Json.num 1), ("aDict", Json.obj [("barParam", Json.num 1)])])) none).kwargs =
      [("foo_param", Json.num 1), ("a_dict", Json.obj [("bar_param", Json.num 1)])] ∧
    ("foo_param", Json.num 1) ∈ convertKeysObj [("fooParam", Json.num 1), ("aDict", Json.obj [("barParam", Json.num 1)])] ∧
    convertKeys (Json.arr [Json.str "Camel", Json.str "Case"]) = Json.arr [Json.str "Camel", Json.str "Case"] ∧
    (mkRequest ⟨false, true, false⟩ "foo" (some (Json.arr [Json.str "Camel", Json.str "Case"])) none).args =
      [Json.str "Camel", Json.str "Case"] :=
  ⟨((camel_case_normalization ⟨false, true, false⟩ rfl "fooMethod"
      (some (Json.obj [("fooParam", Json.num 1), ("aDict", Json.obj [("barParam", Json.num 1)])])) none).1).trans rfl,
   (((camel_case_normalization ⟨false, true, false⟩ rfl "fooMethod"
      (some (Json.obj [("fooParam", Json.num 1), ("aDict", Json.obj [("barParam", Json.num 1)])])) none).2.1 _ rfl).1).trans rfl,
   (((camel_case_normalization ⟨false, true, false⟩ rfl "fooMethod"
      (some (Json.obj [("fooParam", Json.num 1), ("aDict", Json.obj [("barParam", Json.num 1)])])) none).2.1 _ rfl).2 "fooParam" (Json.num 1) (by simp)),
   ((camel_case_normalization ⟨false, true, false⟩ rfl "foo" (some (Json.arr [Json.str "Camel", Json.str "Case"])) none).2.2.2.1 _),
   ((camel_case_normalization ⟨false, true, false⟩ rfl "foo" (some (Json.arr [Json.str "Camel", Json.str "Case"])) none).2.2.2.2 _ rfl)⟩

/-- Claim C9: on success, sorting only reorders entries: the keys are a permutation of the input keys, every non-error pair is preserved exactly, and the error object is replaced by a permutation of its own pairs. -/
theorem sort_response_preserves_pairs (r : List (String × Json)) (s : List (String × Json))
    (hnd : (r.map Prod.fst).Nodup)
    (h : _sort_response r = some s) :
    (s.map Prod.fst).Perm (r.map Prod.fst) ∧
    (∀ k v, ¬ k = "error" → ((k, v) ∈ s ↔ (k, v) ∈ r)) ∧
    (∀ eo, ("error", Json.obj eo) ∈ r →
      ∃ se, ("error", Json.obj se) ∈ s ∧ se.Perm eo) := by
  unfold _sort_response at h
  cases hlk : lookupKey r "error" with
  | none =>
    rw [hlk] at h
    have hsperm := sortByOrder_perm rootOrder r s h
    refine ⟨hsperm.map Prod.fst, fun k v _ => hsperm.mem_iff, ?_⟩
    intro eo heo
    exact absurd heo (lookupKey_eq_none_not_mem r "error" (Json.obj eo) hlk)
  | some ev =>
    rw [hlk] at h
    cases ev with
    | obj eo =>
      dsimp only at h
      cases hse : sortByOrder errorOrder eo with
      | none =>
        rw [hse] at h
        simp at h
      | some se =>
        rw [hse, Option.some_bind] at h
        have hsperm := sortByOrder_perm rootOrder _ s h
        have hr2keys := map_replace_keys r se
        refine ⟨?_, ?_, ?_⟩
        · have := hsperm.map Prod.fst
          rw [hr2keys] at this
          exact this
        · intro k v hk
          rw [hsperm.mem_iff]
          exact mem_replace_iff r se k v hk
        · intro eo2 heo2
          have hlk2 : lookupKey r "error" = some (Json.obj eo2) :=
            lookupKey_eq_some_of_mem r "error" (Json.obj eo2) hnd heo2
          rw [hlk] at hlk2
          injection hlk2 with hlk2
          injection hlk2 with hlk2
          subst hlk2
          refine ⟨se, ?_, sortByOrder_perm errorOrder eo se hse⟩
          have himg := List.mem_map_of_mem
            (fun kv => if kv.1 == "error" then (kv.1, Json.obj se) else kv) heo2
          simp only [beq_self_eq_true, if_pos] at himg
          exact hsperm.mem_iff.mpr himg
    | null => simp at h
    | bool b => simp at h
    | num n => simp at h
    | str st => simp at h
    | arr xs => simp at h

/-- Witness for claim C9 at a concrete unsorted response mapping. -/
theorem sort_response_preserves_pairs_witness :
    (([("jsonrpc", Json.str "2.0"),
        ("error", Json.obj [("code", Json.num 2), ("message", Json.str "m")]),
        ("id", Json.num 1)] : List (String × Json)).map Prod.fst).Perm
      (([("id", Json.num 1),
        ("error", Json.obj [("message", Json.str "m"), ("code", Json.num 2)]),
        ("jsonrpc", Json.str "2.0")] : List (String × Json)).map Prod.fst) ∧
    (("id", Json.num 1) ∈
        ([("jsonrpc", Json.str "2.0"),
          ("error", Json.obj [("code", Json.num 2), ("message", Json.str "m")]),
          ("id", Json.num 1)] : List (String × Json)) ↔
      ("id", Json.num 1) ∈
        ([("id", Json.num 1),
          ("error", Json.obj [("message", Json.str "m"), ("code", Json.num 2)]),
          ("jsonrpc", Json.str "2.0")] : List (String × Json))) ∧
    (∃ se, ("error", Json.obj se) ∈
        ([("jsonrpc", Json.str "2.0"),
          ("error", Json.obj [("code", Json.num 2), ("message", Json.str "m")]),
          ("id", Json.num 1)] : List (String × Json)) ∧
      se.Perm [("message", Json.str "m"), ("code", Json.num 2)]) :=
  ⟨(sort_response_preserves_pairs [("id", Json.num 1),
      ("error", Json.obj [("message", Json.str "m"), ("code", Json.num 2)]),
      ("jsonrpc", Json.str "2.0")]
     [("jsonrpc", Json.str "2.0"),
      ("error", Json.obj [("code", Json.num 2), ("message", Json.str "m")]),
      ("id", Json.num 1)] (by decide) rfl).1,
   (sort_response_preserves_pairs [("id", Json.num 1),
      ("error", Json.obj [("message", Json.str "m"), ("code", Json.num 2)]),
      ("jsonrpc", Json.str "2.0")]
     [("jsonrpc", Json.str "2.0"),
      ("error", Json.obj [("code", Json.num 2), ("message", Json.str "m")]),
      ("id", Json.num 1)] (by decide) rfl).2.1 "id" (Json.num 1) (by decide),
   (sort_response_preserves_pairs [("id", Json.num 1),
      ("error", Json.obj [("message", Json.str "m"), ("code", Json.num 2)]),
      ("jsonrpc", Json.str "2.0")]
     [("jsonrpc", Json.str "2.0"),
      ("error", Json.obj [("code", Json.num 2), ("message", Json.str "m")]),
      ("id", Json.num 1)] (by decide) rfl).2.2
     [("message", Json.str "m"), ("code", Json.num 2)] (by simp)⟩

/-- Claim C10: sorting succeeds whenever all keys lie in the fixed orders (with the error value an object); a top-level key outside jsonrpc, result, error, id, or an error-object key outside code, message, data, makes it raise; and every mapping produced by SuccessResponse.json, ErrorResponse.json or ErrorResponse.json_debug sorts without fault. -/
theorem sort_response_totality :
    (∀ r : List (String × Json),
      (∀ k ∈ r.map Prod.fst, k ∈ rootOrder) →
      (∀ kv ∈ r, kv.1 = "error" → ∃ eo, kv.2 = Json.obj eo ∧
          ∀ k ∈ eo.map Prod.fst, k ∈ errorOrder) →
      (_sort_response r).isSome = true) ∧
    (∀ r : List (String × Json),
      (∃ k ∈ r.map Prod.fst, ¬ k ∈ rootOrder) → _sort_response r = none) ∧
    (∀ r : List (String × Json), ∀ eo, lookupKey r "error" = some (Json.obj eo) →
      (∃ k ∈ eo.map Prod.fst, ¬ k ∈ errorOrder) → _sort_response r = none) ∧
    (∀ sr : SuccessResponse, ∀ m, SuccessResponse.json sr = some m →
      (_sort_response m).isSome = true) ∧
    (∀ e : ErrorResponse, (_sort_response (ErrorResponse.json e)).isSome = true ∧
      (_sort_response (ErrorResponse.json_debug e)).isSome = true) := by
  refine ⟨?_, ?_, ?_, ?_, fun e => ⟨rfl, rfl⟩⟩
  · intro r hroot herr
    unfold _sort_response
    cases hlk : lookupKey r "error" with
    | none =>
      rcases sortByOrder_total rootOrder r hroot with ⟨s, hs⟩
      rw [hs]
      rfl
    | some ev =>
      have hmem : ("error", ev) ∈ r := lookupKey_mem r "error" ev hlk
      rcases herr _ hmem rfl with ⟨eo, hev, heosub⟩
      subst hev
      dsimp only
      rcases sortByOrder_total errorOrder eo heosub with ⟨se, hse⟩
      rw [hse, Option.some_bind]
      have hr2keys := map_replace_keys r se
      rcases sortByOrder_total rootOrder
          (r.map (fun kv => if kv.1 == "error" then (kv.1, Json.obj se) else kv))
          (by rw [hr2keys]; exact hroot) with ⟨s, hs⟩
      rw [hs]
      rfl
  · intro r hbad
    unfold _sort_response
    cases hlk : lookupKey r "error" with
    | none => exact sortByOrder_none_of_badkey rootOrder r hbad
    | some ev =>
      cases ev with
      | obj eo =>
        dsimp only
        cases hse : sortByOrder errorOrder eo with
        | none => rfl
        | some se =>
          rw [Option.some_bind]
          apply sortByOrder_none_of_badkey
          rw [map_replace_keys r se]
          exact hbad
      | null => rfl
      | bool b => rfl
      | num n => rfl
      | str st => rfl
      | arr xs => rfl
  · intro r eo hlk hbad
    unfold _sort_response
    rw [hlk]
    dsimp only
    rw [sortByOrder_none_of_badkey errorOrder eo hbad]
    rfl
  · intro sr m hm
    unfold SuccessResponse.json at hm
    cases hr : truthy sr.request_id with
    | true =>
      rw [hr] at hm
      simp at hm
      subst hm
      rfl
    | false =>
      rw [hr] at hm
      simp at hm

/-- Witness for claim C10: totality, both failure modes, and the produced mappings, at concrete inputs. -/
theorem sort_response_totality_witness :
    (_sort_response [("id", Json.num 1),
        ("error", Json.obj [("message", Json.str "m"), ("code", Json.num 2)]),
        ("jsonrpc", Json.str "2.0")]).isSome = true ∧
    _sort_response [("foo", Json.null)] = none ∧
    _sort_response [("error", Json.obj [("foo", Json.null)])] = none ∧
    (_sort_response [("jsonrpc", Json.str "2.0"), ("result", Json.null),
        ("id", Json.num 1)]).isSome = true ∧
    (_sort_response (ErrorResponse.json ⟨400, Json.null, Json.num 1, Json.str "m", Json.null⟩)).isSome = true :=
  ⟨sort_response_totality.1 [("id", Json.num 1),
      ("error", Json.obj [("message", Json.str "m"), ("code", Json.num 2)]),
      ("jsonrpc", Json.str "2.0")] (by decide) (by
    intro kv hkv hk
    simp only [List.mem_cons, List.not_mem_nil, or_false] at hkv
    rcases hkv with h1 | h1 | h1 <;> subst h1
    · exact absurd hk (by decide)
    · exact ⟨[("message", Json.str "m"), ("code", Json.num 2)], rfl, by decide⟩
    · exact absurd hk (by decide)),
   sort_response_totality.2.1 [("foo", Json.null)] ⟨"foo", by decide, by decide⟩,
   sort_response_totality.2.2.1 [("error", Json.obj [("foo", Json.null)])] [("foo", Json.null)]
     rfl ⟨"foo", by decide, by decide⟩,
   sort_response_totality.2.2.2.1 ⟨200, Json.num 1, Json.null⟩
     [("jsonrpc", Json.str "2.0"), ("result", Json.null), ("id", Json.num 1)] rfl,
   (sort_response_totality.2.2.2.2 ⟨400, Json.null, Json.num 1, Json.str "m", Json.null⟩).1⟩
